import Mathlib

/-!
Shallow embedding of `rmsd_stats_matlab.py` (v1.0.0).

The program aggregates per-sample RMSD time series into one CSV table:
* `get_conditions` reads a headerless 3-column manifest CSV
  (condition, directory path, color);
* `extract_rmsd` scans each condition directory for filenames that start
  with `RMSD`, do not contain `histogram` and end with `.csv`, extracts the
  sample name with the regex `RMSD_(.+)_.+\.csv` (Python `re.search`,
  greedy), looks up the sample index (sheet 1, unguarded) and the condition
  index (sheet 2, guarded by `try/except IndexError`), accumulates four
  parallel lists, writes the CSV and copies the index file next to it.

Modelling choices:
* the filesystem is a finite association list from directory path to a
  list of (filename, CSV rows); a CSV data row is a pair
  (frame : Int, RMSD token : String).  The program performs no arithmetic
  on RMSD values, it only moves them from the input CSV to the output CSV,
  so they are modelled as the opaque strings that appear in the files;
* `sys.exit(1)` and the unhandled `IndexError` of the sample lookup both
  terminate the process with exit status 1; they are modelled as the
  `Except` error ladder `FatalError`.  `loggedError` records the
  `logging.error` message attached to each fatal outcome (`none` for the
  unhandled exception, which prints a traceback instead of a log line);
* Python's `sorted` on strings is lexicographic on code points; it is
  modelled by an insertion sort over the code-point order `lexLe`
  (filenames are bare strings, so any correct sort yields the same list);
* `os.path.dirname`/`basename`/`join` are modelled for plain relative
  POSIX paths (split at the last `/`), which covers the paths used here.
-/

namespace RmsdStats

/-! ### String utilities -/

/-- Substring test, modelling Python's `"histogram" in fn`. -/
def hasInfix (pat : List Char) : List Char → Bool
  | [] => pat.isEmpty
  | c :: t => pat.isPrefixOf (c :: t) || hasInfix pat t

/-- `fn.endswith(suffix)`. -/
def strEndsWith (suffix s : String) : Bool :=
  suffix.data.reverse.isPrefixOf s.data.reverse

/-- The directory filter of line 89-90:
`fn.startswith("RMSD") and not "histogram" in fn and fn.endswith(".csv")`. -/
def keepFile (fn : String) : Bool :=
  "RMSD".data.isPrefixOf fn.data && !(hasInfix "histogram".data fn.data)
    && strEndsWith ".csv" fn

/-- Code-point comparison of strings, the order Python's `sorted` uses. -/
def lexLe : List Char → List Char → Bool
  | [], _ => true
  | _ :: _, [] => false
  | a :: s, b :: t =>
      if a.toNat < b.toNat then true
      else if b.toNat < a.toNat then false
      else lexLe s t

def insertFile (a : String) : List String → List String
  | [] => [a]
  | b :: t => if lexLe a.data b.data then a :: b :: t else b :: insertFile a t

/-- `sorted(by_condition)` of line 97: lexicographic sort of the kept
filenames. -/
def sortFiles : List String → List String
  | [] => []
  | a :: t => insertFile a (sortFiles t)

/-! ### The regex `RMSD_(.+)_.+\.csv` under Python `re.search` semantics

`.` matches any character except a newline; `(.+)` is greedy, so at the
leftmost starting position the engine keeps the longest group 1 for which
the remainder still matches `_.+\.csv` (followed by anything, since
`search` does not anchor the end). -/

/-- One character as matched by `.` (anything but newline). -/
def dotOk (c : Char) : Bool := c != '\n'

/-- Does `.+\.csv` match a prefix of `l` (rest unconstrained)? -/
def dotPlusCsv : List Char → Bool
  | [] => false
  | c :: t => dotOk c && (".csv".data.isPrefixOf t || dotPlusCsv t)

/-- Does `_.+\.csv` match a prefix of `l` (rest unconstrained)? -/
def tailMatch : List Char → Bool
  | [] => false
  | c :: t => c == '_' && dotPlusCsv t

/-- Can group 1 be the first `j` characters: all matched by `.`, with the
remainder matching `_.+\.csv`? -/
def groupCheck (s : List Char) (j : Nat) : Bool :=
  (s.take j).all dotOk && tailMatch (s.drop j)

/-- Greedy choice of group 1 on the text after the literal `RMSD_`:
the longest non-empty newline-free prefix whose remainder matches
`_.+\.csv`.  The fuel argument counts down from `s.length`. -/
def greedyGroup : List Char → Nat → Option (List Char)
  | _, 0 => none
  | s, Nat.succ k =>
      if groupCheck s (k + 1) then some (s.take (k + 1))
      else greedyGroup s k

/-- `re.search` scan: try each starting position from the left; at the
first position where the pattern matches, return group 1. -/
def searchRMSD : List Char → Option (List Char)
  | [] => none
  | c :: t =>
      if "RMSD_".data.isPrefixOf (c :: t) then
        match greedyGroup ((c :: t).drop 5) ((c :: t).drop 5).length with
        | some g => some g
        | none => searchRMSD t
      else searchRMSD t

/-- Lines 98-100: `pattern.search(item)`, sample name = `match.group(1)`. -/
def extractSample (fn : String) : Option String :=
  (searchRMSD fn.data).map String.mk

/-! ### Data model -/

/-- One row of the conditions manifest (columns set at line 64). -/
structure ConditionRow where
  condition : String
  path : String
  color : String
deriving DecidableEq

/-- The data rows of one per-sample CSV file: `frames` and `RMSD` columns,
in file order.  The two columns of one file necessarily have the same
length, hence one list of pairs. -/
abbrev FileRows := List (Int × String)

/-- The filesystem the run sees: directory path ↦ directory listing, each
entry a filename with the rows of the CSV stored under that name. -/
structure FS where
  dirs : List (String × List (String × FileRows))
deriving DecidableEq

/-- `os.listdir` together with the later `pd.read_csv` of each file:
look the directory up by path (`none` models `FileNotFoundError`). -/
def FS.findDir (fs : FS) (p : String) : Option (List (String × FileRows)) :=
  ((fs.dirs.filter (fun d => d.1 == p)).map Prod.snd).head?

/-- Contents of one file of a directory listing. -/
def findFile (files : List (String × FileRows)) (fn : String) :
    Option FileRows :=
  ((files.filter (fun p => p.1 == fn)).map Prod.snd).head?

/-- The two sheets of the index spreadsheet (lines 82-83), row order kept. -/
structure IndexFile where
  path : String
  samples : List (String × Int)
  conditions : List (String × Int)
deriving DecidableEq

/-- `sheet[sheet[col] == name]["index"].values[0]`: the `index` value of
the first row whose name column equals `name`; `none` models the
`IndexError` raised by `.values[0]` on an empty selection. -/
def lookupIndex (sheet : List (String × Int)) (name : String) : Option Int :=
  ((sheet.filter (fun r => r.1 == name)).map Prod.snd).head?

/-- The ways the run terminates with exit status 1: `sys.exit(1)` at lines
103 and 117, and unhandled exceptions (sample `IndexError` at line 109,
`FileNotFoundError` from `os.listdir`, missing file on `pd.read_csv`). -/
inductive FatalError where
  | patternMismatch (filename : String)
  | sampleNotInIndex (sample : String)
  | conditionNotInIndex (condition : String) (indexFile : String)
  | missingDir (path : String)
  | missingFile (dir : String) (filename : String)
deriving DecidableEq

/-- The `logging.error` line emitted before the process dies, when there is
one: the pattern mismatch and the guarded condition lookup log a message;
the unhandled exceptions print a traceback, not a `logging.error` line. -/
def loggedError : FatalError → Option String
  | .patternMismatch fn =>
      some ("\tNo match between the pattern \x27RMSD_(.+)_.+\\.csv\x27 and the file name "
        ++ fn ++ ".")
  | .conditionNotInIndex c idx =>
      some ("\"" ++ c ++ "\" does not exists in the second tab of the index file: "
        ++ idx)
  | .sampleNotInIndex _ => none
  | .missingDir _ => none
  | .missingFile _ _ => none

/-- The warning of line 93. -/
def warnMsg (condition : String) : String :=
  "Condition " ++ condition ++ ": no RMSD files, this condition is skipped."

/-- The four parallel lists accumulated in `data` (line 85). -/
structure Data where
  sample : List Int
  condition : List Int
  frame : List Int
  rmsd : List String
deriving DecidableEq

def Data.empty : Data := ⟨[], [], [], []⟩

def Data.append (a b : Data) : Data :=
  ⟨a.sample ++ b.sample, a.condition ++ b.condition,
   a.frame ++ b.frame, a.rmsd ++ b.rmsd⟩

/-! ### The per-file, per-condition and whole-run passes

The Python loop mutates `data` left to right and exits the process at the
first fatal error.  The embedding computes the contribution of each file /
condition and appends them in the same order, threading the first error
through `Except`; list append is associative, so the result is the same
four lists the imperative loop builds. -/

/-- Lines 98-119, body of `for item in sorted(by_condition)` for one kept
filename: regex extraction, file load, sample lookup (unguarded, runs
first at lines 108-109), condition lookup (guarded, lines 110-117), then
the four appends. -/
def processFile (indexSamples indexConditions : List (String × Int))
    (indexFilePath conditionName dirPath : String)
    (files : List (String × FileRows)) (fn : String) :
    Except FatalError Data :=
  match searchRMSD fn.data with
  | none => .error (.patternMismatch fn)
  | some g =>
      let sample := String.mk g
      match findFile files fn with
      | none => .error (.missingFile dirPath fn)
      | some rows =>
          let currentFrames := rows.map Prod.fst
          match lookupIndex indexSamples sample with
          | none => .error (.sampleNotInIndex sample)
          | some si =>
              match lookupIndex indexConditions conditionName with
              | none => .error (.conditionNotInIndex conditionName indexFilePath)
              | some ci =>
                  .ok ⟨List.replicate currentFrames.length si,
                       List.replicate currentFrames.length ci,
                       currentFrames,
                       rows.map Prod.snd⟩

/-- The `for item in sorted(by_condition)` loop over a list of filenames. -/
def processFiles (indexSamples indexConditions : List (String × Int))
    (indexFilePath conditionName dirPath : String)
    (files : List (String × FileRows)) :
    List String → Except FatalError Data
  | [] => .ok Data.empty
  | fn :: rest =>
      match processFile indexSamples indexConditions indexFilePath
          conditionName dirPath files fn with
      | .error e => .error e
      | .ok d =>
          match processFiles indexSamples indexConditions indexFilePath
              conditionName dirPath files rest with
          | .error e => .error e
          | .ok d2 => .ok (Data.append d d2)

/-- The filenames of a directory listing kept by the filter of
lines 89-90. -/
def keptNames (files : List (String × FileRows)) : List String :=
  (files.map Prod.fst).filter keepFile

/-- Result of one iteration of the condition loop: data contribution,
names appended to `conditions_to_remove`, warnings logged. -/
structure CondResult where
  data : Data
  skipped : List String
  warnings : List String
deriving DecidableEq

/-- Lines 88-119, body of the condition loop for one manifest row:
list the directory, filter (lines 89-90), skip with a warning when no
file matches (lines 91-94), otherwise process the sorted filenames. -/
def processCondition (index : IndexFile) (fs : FS) (c : ConditionRow) :
    Except FatalError CondResult :=
  match fs.findDir c.path with
  | none => .error (.missingDir c.path)
  | some files =>
      let byCondition := keptNames files
      if byCondition.isEmpty then
        .ok ⟨Data.empty, [c.condition], [warnMsg c.condition]⟩
      else
        match processFiles index.samples index.conditions index.path
            c.condition c.path files (sortFiles byCondition) with
        | .error e => .error e
        | .ok d => .ok ⟨d, [], []⟩

/-- The `for _, row_condition in conditions.iterrows()` loop. -/
def processConditions (index : IndexFile) (fs : FS) :
    List ConditionRow → Except FatalError CondResult
  | [] => .ok ⟨Data.empty, [], []⟩
  | c :: rest =>
      match processCondition index fs c with
      | .error e => .error e
      | .ok r1 =>
          match processConditions index fs rest with
          | .error e => .error e
          | .ok r2 =>
              .ok ⟨Data.append r1.data r2.data, r1.skipped ++ r2.skipped,
                   r1.warnings ++ r2.warnings⟩

/-! ### Serialization and side effects -/

/-- The rows of the final dataframe: the four parallel lists zipped. -/
def rowsOf (d : Data) : List (Int × Int × Int × String) :=
  d.sample.zip (d.condition.zip (d.frame.zip d.rmsd))

def csvHeader : String := "sample,condition,frame,RMSD"

def csvRow (r : Int × Int × Int × String) : String :=
  toString r.1 ++ "," ++ toString r.2.1 ++ "," ++ toString r.2.2.1 ++ ","
    ++ r.2.2.2

/-- `df.to_csv(data_out_path, sep=',', index=False)` (line 122): header
line followed by one line per row, no index column. -/
def csvLines (d : Data) : List String :=
  csvHeader :: (rowsOf d).map csvRow

/-- `os.path.basename` for plain POSIX paths. -/
def pathBasename (p : String) : String :=
  String.mk ((p.data.reverse.takeWhile (fun c => c != '/')).reverse)

/-- `os.path.dirname` for plain relative POSIX paths. -/
def pathDirname (p : String) : String :=
  String.mk ((p.data.reverse.dropWhile (fun c => c != '/')).reverse.dropLast)

/-- `os.path.join` for the shapes `dirname` produces here. -/
def pathJoin (d b : String) : String :=
  if d == "" then b else d ++ "/" ++ b

/-- A successful run: the accumulated state, the CSV written at
`data_out_path` (line 122) and the destination of the index file copy
(lines 125-126). -/
structure RunResult where
  result : CondResult
  outPath : String
  outLines : List String
  indexCopiedTo : String
deriving DecidableEq

/-- Lines 68-127, `extract_rmsd`: the whole pass.  The output CSV and the
index copy happen only after the loop finished without a fatal error. -/
def extract_rmsd (conditions : List ConditionRow) (index : IndexFile)
    (dataOutPath : String) (fs : FS) : Except FatalError RunResult :=
  match processConditions index fs conditions with
  | .error e => .error e
  | .ok r =>
      .ok ⟨r, dataOutPath, csvLines r.data,
           pathJoin (pathDirname dataOutPath) (pathBasename index.path)⟩

/-- Exit status of the process: `sys.exit(1)` and unhandled exceptions
give 1, a completed run gives 0. -/
def exitCode : Except FatalError RunResult → Nat
  | .error _ => 1
  | .ok _ => 0

/-- The output CSV on disk after the run: written only on success. -/
def outputWritten : Except FatalError RunResult → Option (String × List String)
  | .error _ => none
  | .ok r => some (r.outPath, r.outLines)

/-! ### `get_conditions` (lines 54-65) -/

/-- Split one CSV line at commas (fields without quoting, as the manifest
uses). -/
def splitComma : List Char → List (List Char)
  | [] => [[]]
  | c :: t =>
      if c == ',' then [] :: splitComma t
      else
        match splitComma t with
        | [] => [[c]]
        | f :: fs => (c :: f) :: fs

/-- Parse one manifest line into the three columns named at line 64;
`none` models the `pandas` tokenizer error on a ragged row. -/
def parseManifestLine (line : String) : Option ConditionRow :=
  match (splitComma line.data).map String.mk with
  | [a, b, c] => some ⟨a, b, c⟩
  | _ => none

/-- `get_conditions`: `pd.read_csv(path, sep=",", header=None)` over the
lines of the manifest file, then column naming. -/
def get_conditions (lines : List String) : Option (List ConditionRow) :=
  lines.mapM parseManifestLine

/-- The accumulated data of a run, when it completed. -/
def runData (x : Except FatalError RunResult) : Except FatalError Data :=
  Except.map (fun r => r.result.data) x

/-- The lines of the output CSV of a run, when it completed. -/
def runLines (x : Except FatalError RunResult) : Except FatalError (List String) :=
  Except.map (fun r => r.outLines) x

/-- The `conditions_to_remove` list of a completed run ([] on abort). -/
def runSkipped : Except FatalError RunResult → List String
  | .error _ => []
  | .ok r => r.result.skipped

/-- The warnings logged by a completed run ([] on abort). -/
def runWarnings : Except FatalError RunResult → List String
  | .error _ => []
  | .ok r => r.result.warnings

/-! ### Spec-side quantities, stated from the specification's words and
compared with the embedded code by the theorems below. -/

/-- Number of entries in the `frames` column of one file. -/
def fileFrameCount (files : List (String × FileRows)) (fn : String) : Nat :=
  match findFile files fn with
  | none => 0
  | some rows => rows.length

/-- Spec §8.5: frames contributed by the (condition, sample) pairs of one
condition; a skipped condition has no kept file and contributes 0. -/
def conditionFrameSum (fs : FS) (c : ConditionRow) : Nat :=
  match fs.findDir c.path with
  | none => 0
  | some files => ((keptNames files).map (fileFrameCount files)).sum

/-- Spec §8.5: sum over all non-skipped (condition, sample) pairs of that
file's frame count. -/
def totalFrameSum (fs : FS) (conds : List ConditionRow) : Nat :=
  (conds.map (conditionFrameSum fs)).sum

/-- Spec §4.5: the rows one kept file contributes, innermost level of the
nesting — frames in source-file order, each tagged with the sample index
and the condition index. -/
def specFileRows (index : IndexFile) (condName : String)
    (files : List (String × FileRows)) (fn : String) :
    List (Int × Int × Int × String) :=
  let si := (lookupIndex index.samples ((extractSample fn).getD "")).getD 0
  let ci := (lookupIndex index.conditions condName).getD 0
  ((findFile files fn).getD []).map (fun p => (si, ci, p.1, p.2))

/-- Spec §4.5, middle level of the nesting: the block of rows of one
condition — samples in sorted filename order; a skipped condition (no
kept file) contributes the empty block. -/
def specCondRows (index : IndexFile) (fs : FS) (c : ConditionRow) :
    List (Int × Int × Int × String) :=
  match fs.findDir c.path with
  | none => []
  | some files =>
      (sortFiles (keptNames files)).flatMap
        (specFileRows index c.condition files)

/-- Spec §4.5 nesting order: outer = conditions in manifest order (a
skipped condition contributes the empty block), inner = samples in sorted
filename order, innermost = frames in file order. -/
def specRows (index : IndexFile) (fs : FS) (conds : List ConditionRow) :
    List (Int × Int × Int × String) :=
  conds.flatMap (specCondRows index fs)

/-- Serialization of one manifest table row to a manifest file line. -/
def manifestLineOf (r : String × String × String) : String :=
  r.1 ++ "," ++ r.2.1 ++ "," ++ r.2.2

/-- The condition record the spec expects from one manifest table row. -/
def conditionRowOf (r : String × String × String) : ConditionRow :=
  ⟨r.1, r.2.1, r.2.2⟩

/-! ### Concrete fixtures used by the end-to-end theorem and witnesses -/

/-- Manifest of spec §8.6: one condition `WT`. -/
def wtConditions : List ConditionRow := [⟨"WT", "data/WT", "#0303fc"⟩]

/-- Filesystem of spec §8.6: `data/WT` holds exactly `RMSD_s1_x.csv` with
frames 1,2,3 and RMSD 0.1,0.2,0.3. -/
def wtFS : FS :=
  ⟨[("data/WT", [("RMSD_s1_x.csv", [(1, "0.1"), (2, "0.2"), (3, "0.3")])])]⟩

/-- Index file of spec §8.6: sample `s1` ↦ 0, condition `WT` ↦ 0. -/
def wtIndex : IndexFile := ⟨"data/index.xlsx", [("s1", 0)], [("WT", 0)]⟩

/-- `wtFS` extended with an empty directory for a second condition. -/
def emptyDirFS : FS :=
  ⟨[("data/EMPTY", []),
    ("data/WT", [("RMSD_s1_x.csv", [(1, "0.1"), (2, "0.2"), (3, "0.3")])])]⟩

/-- A directory holding a file that passes the filter but not the regex
(no underscore after `RMSD`). -/
def badNameFS : FS := ⟨[("data/BAD", [("RMSDx.csv", [(1, "0.5")])])]⟩

/-- Manifest with the single condition `BAD` over `badNameFS`. -/
def badConditions : List ConditionRow := [⟨"BAD", "data/BAD", "#000000"⟩]

/-- Index file whose first sheet lacks sample `s1`. -/
def noSampleIndex : IndexFile := ⟨"data/index.xlsx", [], [("WT", 0)]⟩

/-- Index file whose second sheet lacks condition `WT`. -/
def noCondIndex : IndexFile := ⟨"data/index.xlsx", [("s1", 0)], []⟩

/-- Index file lacking both the sample `s1` and the condition `WT`. -/
def emptyIndex : IndexFile := ⟨"data/index.xlsx", [], []⟩

/-! ## Supporting lemmas -/

theorem Data.empty_append (d : Data) : Data.append Data.empty d = d := by
  cases d; simp [Data.append, Data.empty]

theorem insertFile_perm (a : String) (l : List String) :
    List.Perm (insertFile a l) (a :: l) := by
  induction l with
  | nil => simp [insertFile]
  | cons b t ih =>
      by_cases h : lexLe a.data b.data
      · simp [insertFile, h]
      · have h1 : List.Perm (b :: insertFile a t) (b :: a :: t) :=
          List.Perm.cons b ih
        have h2 : List.Perm (b :: a :: t) (a :: b :: t) := List.Perm.swap a b t
        simpa [insertFile, h] using h1.trans h2

theorem sortFiles_perm (l : List String) : List.Perm (sortFiles l) l := by
  induction l with
  | nil => simp [sortFiles]
  | cons a t ih =>
      exact (insertFile_perm a (sortFiles t)).trans (List.Perm.cons a ih)

theorem mem_sortFiles {fn : String} {l : List String} (h : fn ∈ l) :
    fn ∈ sortFiles l := ((sortFiles_perm l).mem_iff).2 h

/-- A successful run of `processConditions` processed every manifest row
without a fatal error. -/
theorem processConditions_ok {index : IndexFile} {fs : FS}
    {conds : List ConditionRow} {r : CondResult}
    (h : processConditions index fs conds = .ok r) :
    ∀ c ∈ conds, ∃ rc, processCondition index fs c = .ok rc := by
  induction conds generalizing r with
  | nil => intro c hc; cases hc
  | cons c0 rest ih =>
      intro c hc
      unfold processConditions at h
      cases h0 : processCondition index fs c0 with
      | error e => rw [h0] at h; cases h
      | ok r1 =>
          rw [h0] at h
          cases hrest : processConditions index fs rest with
          | error e => rw [hrest] at h; cases h
          | ok r2 =>
              rcases List.mem_cons.1 hc with rfl | hc'
              · exact ⟨r1, h0⟩
              · exact ih hrest c hc'

/-- A successful run of the file loop processed every listed filename
without a fatal error. -/
theorem processFiles_ok {iS iC : List (String × Int)} {ip cn dp : String}
    {files : List (String × FileRows)} {names : List String} {d : Data}
    (h : processFiles iS iC ip cn dp files names = .ok d) :
    ∀ fn ∈ names, ∃ dd, processFile iS iC ip cn dp files fn = .ok dd := by
  induction names generalizing d with
  | nil => intro fn hfn; cases hfn
  | cons fn0 rest ih =>
      intro fn hfn
      unfold processFiles at h
      cases h0 : processFile iS iC ip cn dp files fn0 with
      | error e => rw [h0] at h; cases h
      | ok d1 =>
          rw [h0] at h
          cases hrest : processFiles iS iC ip cn dp files rest with
          | error e => rw [hrest] at h; cases h
          | ok d2 =>
              rcases List.mem_cons.1 hfn with rfl | hfn'
              · exact ⟨d1, h0⟩
              · exact ih hrest fn hfn'

/-- A successful condition iteration with a non-empty kept list processed
every kept filename without a fatal error. -/
theorem processCondition_ok_file {index : IndexFile} {fs : FS}
    {c : ConditionRow} {rc : CondResult} {files : List (String × FileRows)}
    {fn : String}
    (h : processCondition index fs c = .ok rc)
    (hdir : fs.findDir c.path = some files)
    (hfn : fn ∈ keptNames files) :
    ∃ dd, processFile index.samples index.conditions index.path c.condition
      c.path files fn = .ok dd := by
  have hne : (keptNames files).isEmpty = false := by
    cases hk : keptNames files with
    | nil => rw [hk] at hfn; cases hfn
    | cons a t => simp
  unfold processCondition at h
  rw [hdir] at h
  simp only [hne, Bool.false_eq_true, if_false] at h
  cases hp : processFiles index.samples index.conditions index.path
      c.condition c.path files (sortFiles (keptNames files)) with
  | error e => rw [hp] at h; cases h
  | ok d => exact processFiles_ok hp fn (mem_sortFiles hfn)

/-- The four lists a single file contributes have equal length, namely the
number of entries of that file's `frames` column. -/
theorem processFile_lengths {iS iC : List (String × Int)} {ip cn dp : String}
    {files : List (String × FileRows)} {fn : String} {d : Data}
    (h : processFile iS iC ip cn dp files fn = .ok d) :
    d.sample.length = d.frame.length ∧ d.condition.length = d.frame.length ∧
    d.rmsd.length = d.frame.length ∧
    d.frame.length = fileFrameCount files fn := by
  cases hs : searchRMSD fn.data with
  | none => simp [processFile, hs] at h
  | some g =>
      cases hf : findFile files fn with
      | none => simp [processFile, hs, hf] at h
      | some rows =>
          cases hsi : lookupIndex iS (String.mk g) with
          | none => simp [processFile, hs, hf, hsi] at h
          | some si =>
              cases hci : lookupIndex iC cn with
              | none => simp [processFile, hs, hf, hsi, hci] at h
              | some ci =>
                  simp only [processFile, hs, hf, hsi, hci] at h
                  cases h
                  simp [fileFrameCount, hf]

theorem processFiles_lengths {iS iC : List (String × Int)} {ip cn dp : String}
    {files : List (String × FileRows)} {names : List String} {d : Data}
    (h : processFiles iS iC ip cn dp files names = .ok d) :
    d.sample.length = d.frame.length ∧ d.condition.length = d.frame.length ∧
    d.rmsd.length = d.frame.length ∧
    d.frame.length = (names.map (fileFrameCount files)).sum := by
  induction names generalizing d with
  | nil =>
      simp only [processFiles] at h
      cases h
      simp [Data.empty]
  | cons fn rest ih =>
      unfold processFiles at h
      cases h0 : processFile iS iC ip cn dp files fn with
      | error e => rw [h0] at h; cases h
      | ok d1 =>
          rw [h0] at h
          cases hrest : processFiles iS iC ip cn dp files rest with
          | error e => rw [hrest] at h; cases h
          | ok d2 =>
              rw [hrest] at h
              cases h
              obtain ⟨a1, b1, c1, e1⟩ := processFile_lengths h0
              obtain ⟨a2, b2, c2, e2⟩ := ih hrest
              simp [Data.append, List.length_append, a1, b1, c1, e1, a2, b2,
                c2, e2]

theorem processCondition_frames {index : IndexFile} {fs : FS}
    {c : ConditionRow} {rc : CondResult}
    (h : processCondition index fs c = .ok rc) :
    rc.data.sample.length = rc.data.frame.length ∧
    rc.data.condition.length = rc.data.frame.length ∧
    rc.data.rmsd.length = rc.data.frame.length ∧
    rc.data.frame.length = conditionFrameSum fs c := by
  cases hdir : fs.findDir c.path with
  | none => simp [processCondition, hdir] at h
  | some files =>
      cases hk : (keptNames files).isEmpty with
      | true =>
          simp only [processCondition, hdir, hk, if_true] at h
          cases h
          have : keptNames files = [] := List.isEmpty_iff.1 hk
          simp [Data.empty, conditionFrameSum, hdir, this]
      | false =>
          simp only [processCondition, hdir, hk, Bool.false_eq_true,
            if_false] at h
          cases hp : processFiles index.samples index.conditions index.path
              c.condition c.path files (sortFiles (keptNames files)) with
          | error e => rw [hp] at h; cases h
          | ok d =>
              rw [hp] at h
              cases h
              obtain ⟨a1, b1, c1, e1⟩ := processFiles_lengths hp
              refine ⟨a1, b1, c1, ?_⟩
              rw [e1, conditionFrameSum, hdir]
              exact List.Perm.sum_eq
                (List.Perm.map (fileFrameCount files) (sortFiles_perm _))

theorem processConditions_frames {index : IndexFile} {fs : FS}
    {conds : List ConditionRow} {r : CondResult}
    (h : processConditions index fs conds = .ok r) :
    r.data.sample.length = r.data.frame.length ∧
    r.data.condition.length = r.data.frame.length ∧
    r.data.rmsd.length = r.data.frame.length ∧
    r.data.frame.length = totalFrameSum fs conds := by
  induction conds generalizing r with
  | nil =>
      simp only [processConditions] at h
      cases h
      simp [Data.empty, totalFrameSum]
  | cons c rest ih =>
      unfold processConditions at h
      cases h0 : processCondition index fs c with
      | error e => rw [h0] at h; cases h
      | ok r1 =>
          rw [h0] at h
          cases hrest : processConditions index fs rest with
          | error e => rw [hrest] at h; cases h
          | ok r2 =>
              rw [hrest] at h
              cases h
              obtain ⟨a1, b1, c1, e1⟩ := processCondition_frames h0
              obtain ⟨a2, b2, c2, e2⟩ := ih hrest
              simp [Data.append, List.length_append, totalFrameSum, a1, b1,
                c1, e1, a2, b2, c2, e2]

theorem lexLe_total (s : List Char) :
    ∀ t, lexLe s t = true ∨ lexLe t s = true := by
  induction s with
  | nil => intro t; left; cases t <;> simp [lexLe]
  | cons a s' ih =>
      intro t
      cases t with
      | nil => right; simp [lexLe]
      | cons b t' =>
          rcases Nat.lt_trichotomy a.toNat b.toNat with h | h | h
          · left; simp [lexLe, h]
          · have h1 : ¬ a.toNat < b.toNat := by omega
            have h2 : ¬ b.toNat < a.toNat := by omega
            rcases ih t' with hst | hts
            · left; simp [lexLe, h1, h2, hst]
            · right; simp [lexLe, h1, h2, hts]
          · right; simp [lexLe, h]

theorem lexLe_trans :
    ∀ s t u : List Char, lexLe s t = true → lexLe t u = true →
      lexLe s u = true := by
  intro s
  induction s with
  | nil => intro t u _ _; simp [lexLe]
  | cons a s' ih =>
      intro t u hst htu
      cases t with
      | nil => simp [lexLe] at hst
      | cons b t' =>
          cases u with
          | nil => simp [lexLe] at htu
          | cons c u' =>
              simp only [lexLe] at hst htu ⊢
              by_cases hab : a.toNat < b.toNat <;>
                by_cases hba : b.toNat < a.toNat <;>
                by_cases hbc : b.toNat < c.toNat <;>
                by_cases hcb : c.toNat < b.toNat <;>
                by_cases hac : a.toNat < c.toNat <;>
                by_cases hca : c.toNat < a.toNat <;>
                simp_all <;>
                first
                | omega
                | exact Or.inr (ih t' u' hst htu)

theorem mem_insertFile {x a : String} {l : List String}
    (h : x ∈ insertFile a l) : x = a ∨ x ∈ l := by
  have := (insertFile_perm a l).mem_iff.1 h
  exact List.mem_cons.1 this

theorem pairwise_insertFile {a : String} {l : List String}
    (hl : List.Pairwise (fun x y => lexLe x.data y.data = true) l) :
    List.Pairwise (fun x y => lexLe x.data y.data = true) (insertFile a l) := by
  induction l with
  | nil => simp [insertFile]
  | cons b t ih =>
      rcases List.pairwise_cons.1 hl with ⟨hb, ht⟩
      by_cases h : lexLe a.data b.data
      · rw [insertFile, if_pos h]
        refine List.pairwise_cons.2 ⟨?_, hl⟩
        intro x hx
        rcases List.mem_cons.1 hx with rfl | hx'
        · exact h
        · exact lexLe_trans (a.data) (b.data) (x.data) h (hb x hx')
      · rw [insertFile, if_neg h]
        refine List.pairwise_cons.2 ⟨?_, ih ht⟩
        intro x hx
        rcases mem_insertFile hx with heq | hx'
        · rw [heq]
          rcases lexLe_total (a.data) (b.data) with hax | hxa
          · exact absurd hax h
          · exact hxa
        · exact hb x hx'

/-- The kept filenames are sorted lexicographically (by code point, as
Python's `sorted` does) before processing. -/
theorem sortFiles_sorted (l : List String) :
    List.Pairwise (fun x y => lexLe x.data y.data = true) (sortFiles l) := by
  induction l with
  | nil => simp [sortFiles]
  | cons a t ih => exact pairwise_insertFile ih

/-- The zip of the four parallel lists one file contributes is that file's
row list tagged with the two indices. -/
theorem rowsOf_fileData (rows : FileRows) (si ci : Int) :
    rowsOf ⟨List.replicate (rows.map Prod.fst).length si,
      List.replicate (rows.map Prod.fst).length ci,
      rows.map Prod.fst, rows.map Prod.snd⟩ =
    rows.map (fun p => (si, ci, p.1, p.2)) := by
  induction rows with
  | nil => rfl
  | cons p t ih => simpa [rowsOf, List.replicate] using ih

theorem rowsOf_append (a b : Data)
    (ha1 : a.sample.length = a.frame.length)
    (ha2 : a.condition.length = a.frame.length)
    (ha3 : a.rmsd.length = a.frame.length) :
    rowsOf (Data.append a b) = rowsOf a ++ rowsOf b := by
  simp only [rowsOf, Data.append]
  have h3 : a.frame.length = a.rmsd.length := ha3.symm
  rw [List.zip_append h3]
  have h2 : a.condition.length = (a.frame.zip a.rmsd).length := by
    simp [List.length_zip]; omega
  rw [List.zip_append h2]
  have h1 : a.sample.length = (a.condition.zip (a.frame.zip a.rmsd)).length := by
    simp [List.length_zip]; omega
  rw [List.zip_append h1]

/-- The rows a single processed file contributes, in file order. -/
theorem processFile_rows {index : IndexFile} {cn dp : String}
    {files : List (String × FileRows)} {fn : String} {d : Data}
    (h : processFile index.samples index.conditions index.path cn dp files fn
      = .ok d) :
    rowsOf d = specFileRows index cn files fn := by
  cases hs : searchRMSD fn.data with
  | none => simp [processFile, hs] at h
  | some g =>
      cases hf : findFile files fn with
      | none => simp [processFile, hs, hf] at h
      | some rows =>
          cases hsi : lookupIndex index.samples (String.mk g) with
          | none => simp [processFile, hs, hf, hsi] at h
          | some si =>
              cases hci : lookupIndex index.conditions cn with
              | none => simp [processFile, hs, hf, hsi, hci] at h
              | some ci =>
                  simp only [processFile, hs, hf, hsi, hci] at h
                  cases h
                  have hes : extractSample fn = some (String.mk g) := by
                    simp [extractSample, hs]
                  have key := rowsOf_fileData rows si ci
                  simpa [specFileRows, hes, hsi, hci, hf] using key

theorem processFiles_rows {index : IndexFile} {cn dp : String}
    {files : List (String × FileRows)} {names : List String} {d : Data}
    (h : processFiles index.samples index.conditions index.path cn dp files
      names = .ok d) :
    rowsOf d = names.flatMap (specFileRows index cn files) := by
  induction names generalizing d with
  | nil =>
      simp only [processFiles] at h
      cases h
      rfl
  | cons fn rest ih =>
      unfold processFiles at h
      cases h0 : processFile index.samples index.conditions index.path cn dp
          files fn with
      | error e => rw [h0] at h; cases h
      | ok d1 =>
          rw [h0] at h
          cases hrest : processFiles index.samples index.conditions index.path
              cn dp files rest with
          | error e => rw [hrest] at h; cases h
          | ok d2 =>
              rw [hrest] at h
              cases h
              obtain ⟨a1, b1, c1, _⟩ := processFile_lengths h0
              rw [List.flatMap_cons, rowsOf_append d1 d2 a1 b1 c1,
                processFile_rows h0, ih hrest]

theorem processCondition_rows {index : IndexFile} {fs : FS}
    {c : ConditionRow} {rc : CondResult}
    (h : processCondition index fs c = .ok rc) :
    rowsOf rc.data = specCondRows index fs c := by
  cases hdir : fs.findDir c.path with
  | none => simp [processCondition, hdir] at h
  | some files =>
      cases hk : (keptNames files).isEmpty with
      | true =>
          simp only [processCondition, hdir, hk, if_true] at h
          cases h
          have hkn : keptNames files = [] := List.isEmpty_iff.1 hk
          simp [specCondRows, hdir, hkn, sortFiles, rowsOf, Data.empty]
      | false =>
          simp only [processCondition, hdir, hk, Bool.false_eq_true,
            if_false] at h
          cases hp : processFiles index.samples index.conditions index.path
              c.condition c.path files (sortFiles (keptNames files)) with
          | error e => rw [hp] at h; cases h
          | ok d =>
              rw [hp] at h
              cases h
              rw [specCondRows, hdir]
              exact processFiles_rows hp

theorem processConditions_rows {index : IndexFile} {fs : FS}
    {conds : List ConditionRow} {r : CondResult}
    (h : processConditions index fs conds = .ok r) :
    rowsOf r.data = specRows index fs conds := by
  induction conds generalizing r with
  | nil =>
      simp only [processConditions] at h
      cases h
      rfl
  | cons c rest ih =>
      unfold processConditions at h
      cases h0 : processCondition index fs c with
      | error e => rw [h0] at h; cases h
      | ok r1 =>
          rw [h0] at h
          cases hrest : processConditions index fs rest with
          | error e => rw [hrest] at h; cases h
          | ok r2 =>
              rw [hrest] at h
              cases h
              obtain ⟨a1, b1, c1, _⟩ := processCondition_frames h0
              have : specRows index fs (c :: rest) =
                  specCondRows index fs c ++ specRows index fs rest :=
                List.flatMap_cons c rest (specCondRows index fs)
              rw [this, rowsOf_append r1.data r2.data a1 b1 c1,
                processCondition_rows h0, ih hrest]

/-! ## Claims -/

/-- C1: for the manifest with the single condition `WT` whose directory
contains exactly `RMSD_s1_x.csv` (frames 1,2,3, RMSD 0.1,0.2,0.3) and the
index file mapping `s1` ↦ 0 and `WT` ↦ 0, the run succeeds, writes the
CSV with header `sample,condition,frame,RMSD` and exactly the rows
`0,0,1,0.1`, `0,0,2,0.2`, `0,0,3,0.3`, and copies the index file into the
output directory under its original filename. -/
theorem c1_end_to_end :
    extract_rmsd wtConditions wtIndex "results/out.csv" wtFS =
      .ok ⟨⟨⟨[0, 0, 0], [0, 0, 0], [1, 2, 3], ["0.1", "0.2", "0.3"]⟩, [], []⟩,
        "results/out.csv",
        ["sample,condition,frame,RMSD", "0,0,1,0.1", "0,0,2,0.2", "0,0,3,0.3"],
        "results/index.xlsx"⟩ := rfl

/-- Inversion of a successful `extract_rmsd` run. -/
theorem extract_rmsd_ok {conds : List ConditionRow} {index : IndexFile}
    {out : String} {fs : FS} {r : RunResult}
    (h : extract_rmsd conds index out fs = .ok r) :
    processConditions index fs conds = .ok r.result ∧ r.outPath = out ∧
    r.outLines = csvLines r.result.data ∧
    r.indexCopiedTo = pathJoin (pathDirname out) (pathBasename index.path) := by
  unfold extract_rmsd at h
  cases hp : processConditions index fs conds with
  | error e => rw [hp] at h; cases h
  | ok r0 => rw [hp] at h; cases h; exact ⟨rfl, rfl, rfl, rfl⟩

/-- C2: on every successful run, the number of data rows of the output
table equals the sum, over all non-skipped (condition, sample) pairs, of
the number of entries in that sample file's `frames` column (the output
CSV has that many lines plus the header). -/
theorem c2_row_count {conds : List ConditionRow} {index : IndexFile}
    {out : String} {fs : FS} {r : RunResult}
    (h : extract_rmsd conds index out fs = .ok r) :
    (rowsOf r.result.data).length = totalFrameSum fs conds ∧
    r.outLines.length = totalFrameSum fs conds + 1 := by
  obtain ⟨hpc, _, hlines, _⟩ := extract_rmsd_ok h
  obtain ⟨a, b, c, e⟩ := processConditions_frames hpc
  have hrows : (rowsOf r.result.data).length = totalFrameSum fs conds := by
    simp only [rowsOf, List.length_zip]
    omega
  refine ⟨hrows, ?_⟩
  rw [hlines]
  simp only [csvLines, List.length_cons, List.length_map]
  omega

/-- Witness for C2 at the concrete scenario of spec §8.6 (3 frames). -/
theorem c2_row_count_witness :
    (rowsOf (Data.mk [0, 0, 0] [0, 0, 0] [1, 2, 3]
        ["0.1", "0.2", "0.3"])).length = totalFrameSum wtFS wtConditions ∧
    (["sample,condition,frame,RMSD", "0,0,1,0.1", "0,0,2,0.2",
        "0,0,3,0.3"] : List String).length =
      totalFrameSum wtFS wtConditions + 1 :=
  @c2_row_count wtConditions wtIndex "results/out.csv" wtFS
    ⟨⟨⟨[0, 0, 0], [0, 0, 0], [1, 2, 3], ["0.1", "0.2", "0.3"]⟩, [], []⟩,
      "results/out.csv",
      ["sample,condition,frame,RMSD", "0,0,1,0.1", "0,0,2,0.2", "0,0,3,0.3"],
      "results/index.xlsx"⟩ rfl

/-- C3: on every successful run the output rows are exactly the nesting
outer = conditions in manifest order (skipped ones contributing the empty
block), middle = samples in lexicographic filename order, inner = frames
in source-file order (`specRows`); and `sortFiles` indeed orders any list
of filenames lexicographically by code point (sorted and a permutation of
its input). -/
theorem c3_row_order {conds : List ConditionRow} {index : IndexFile}
    {out : String} {fs : FS} {r : RunResult} (l : List String)
    (h : extract_rmsd conds index out fs = .ok r) :
    rowsOf r.result.data = specRows index fs conds ∧
    List.Pairwise (fun x y => lexLe x.data y.data = true) (sortFiles l) ∧
    List.Perm (sortFiles l) l :=
  ⟨processConditions_rows (extract_rmsd_ok h).1, sortFiles_sorted l,
    sortFiles_perm l⟩

/-- Witness for C3 at the concrete scenario of spec §8.6. -/
theorem c3_row_order_witness :
    rowsOf (Data.mk [0, 0, 0] [0, 0, 0] [1, 2, 3] ["0.1", "0.2", "0.3"]) =
      specRows wtIndex wtFS wtConditions ∧
    List.Pairwise (fun x y => lexLe x.data y.data = true)
      (sortFiles ["RMSD_b_x.csv", "RMSD_a_x.csv"]) ∧
    List.Perm (sortFiles ["RMSD_b_x.csv", "RMSD_a_x.csv"])
      ["RMSD_b_x.csv", "RMSD_a_x.csv"] :=
  @c3_row_order wtConditions wtIndex "results/out.csv" wtFS
    ⟨⟨⟨[0, 0, 0], [0, 0, 0], [1, 2, 3], ["0.1", "0.2", "0.3"]⟩, [], []⟩,
      "results/out.csv",
      ["sample,condition,frame,RMSD", "0,0,1,0.1", "0,0,2,0.2", "0,0,3,0.3"],
      "results/index.xlsx"⟩
    ["RMSD_b_x.csv", "RMSD_a_x.csv"] rfl

/-- A filename the regex rejects makes its processing fail with the
pattern-mismatch fatal error (lines 101-103). -/
theorem processFile_pattern_error {iS iC : List (String × Int)}
    {ip cn dp fn : String} {files : List (String × FileRows)}
    (hs : searchRMSD fn.data = none) :
    processFile iS iC ip cn dp files fn = .error (.patternMismatch fn) := by
  simp [processFile, hs]

/-- A successfully processed file had its sample resolved in sheet 1. -/
theorem processFile_ok_sample {iS iC : List (String × Int)}
    {ip cn dp fn s : String} {files : List (String × FileRows)} {d : Data}
    (hfn : extractSample fn = some s)
    (h : processFile iS iC ip cn dp files fn = .ok d) :
    ∃ si, lookupIndex iS s = some si := by
  obtain ⟨g, hg, hmk⟩ := Option.map_eq_some'.1 hfn
  cases hf : findFile files fn with
  | none => simp [processFile, hg, hf] at h
  | some rows =>
      cases hsi : lookupIndex iS (String.mk g) with
      | none => simp [processFile, hg, hf, hsi] at h
      | some si => exact ⟨si, hmk ▸ hsi⟩

/-- A successfully processed file had its condition resolved in sheet 2. -/
theorem processFile_ok_condition {iS iC : List (String × Int)}
    {ip cn dp fn : String} {files : List (String × FileRows)} {d : Data}
    (h : processFile iS iC ip cn dp files fn = .ok d) :
    ∃ ci, lookupIndex iC cn = some ci := by
  cases hg : searchRMSD fn.data with
  | none => simp [processFile, hg] at h
  | some g =>
      cases hf : findFile files fn with
      | none => simp [processFile, hg, hf] at h
      | some rows =>
          cases hsi : lookupIndex iS (String.mk g) with
          | none => simp [processFile, hg, hf, hsi] at h
          | some si =>
              cases hci : lookupIndex iC cn with
              | none => simp [processFile, hg, hf, hsi, hci] at h
              | some ci => exact ⟨ci, rfl⟩

/-- A condition whose directory holds no kept file takes the warn-and-skip
branch of lines 91-94. -/
theorem processCondition_skip {index : IndexFile} {fs : FS}
    {c : ConditionRow} {files : List (String × FileRows)}
    (hdir : fs.findDir c.path = some files)
    (hempty : keptNames files = []) :
    processCondition index fs c =
      .ok ⟨Data.empty, [c.condition], [warnMsg c.condition]⟩ := by
  simp [processCondition, hdir, hempty]

/-- Inserting a skipping condition anywhere in the manifest keeps the run
alive, adds its name to the skip list and its warning to the log, and
leaves the accumulated data unchanged. -/
theorem processConditions_skip_middle {index : IndexFile} {fs : FS}
    {c : ConditionRow}
    (hc : processCondition index fs c =
      .ok ⟨Data.empty, [c.condition], [warnMsg c.condition]⟩) :
    ∀ pre post : List ConditionRow, ∀ r' : CondResult,
      processConditions index fs (pre ++ post) = .ok r' →
      ∃ r, processConditions index fs (pre ++ c :: post) = .ok r ∧
        r.data = r'.data ∧ c.condition ∈ r.skipped ∧
        warnMsg c.condition ∈ r.warnings := by
  intro pre
  induction pre with
  | nil =>
      intro post r' hsmall
      simp only [List.nil_append] at hsmall ⊢
      refine ⟨⟨Data.append Data.empty r'.data, [c.condition] ++ r'.skipped,
        [warnMsg c.condition] ++ r'.warnings⟩, ?_, ?_, ?_, ?_⟩
      · unfold processConditions
        rw [hc, hsmall]
      · exact Data.empty_append r'.data
      · exact List.mem_append_left _ (List.mem_singleton.2 rfl)
      · exact List.mem_append_left _ (List.mem_singleton.2 rfl)
  | cons p ps ih =>
      intro post r' hsmall
      simp only [List.cons_append] at hsmall ⊢
      unfold processConditions at hsmall
      cases hp : processCondition index fs p with
      | error e => rw [hp] at hsmall; cases hsmall
      | ok r1 =>
          rw [hp] at hsmall
          cases hps : processConditions index fs (ps ++ post) with
          | error e => rw [hps] at hsmall; cases hsmall
          | ok r2 =>
              rw [hps] at hsmall
              cases hsmall
              obtain ⟨rb, hbig, hdata, hmem, hwarn⟩ := ih post r2 hps
              refine ⟨⟨Data.append r1.data rb.data, r1.skipped ++ rb.skipped,
                r1.warnings ++ rb.warnings⟩, ?_, ?_, ?_, ?_⟩
              · unfold processConditions
                rw [hp, hbig]
              · rw [hdata]
              · exact List.mem_append_right _ hmem
              · exact List.mem_append_right _ hwarn

/-- C4: a condition whose directory contains no filename passing the
filter does not abort the run: if the run over the other conditions
completes, the run with the empty condition inserted anywhere also
completes, logs the skip warning, records the condition as skipped, and
produces the same accumulated data and the same output CSV (the empty
condition contributes zero rows, the others still produce theirs). -/
theorem c4_skip_on_empty {index : IndexFile} {fs : FS} {out : String}
    {pre post : List ConditionRow} {c : ConditionRow}
    {files : List (String × FileRows)} {r' : RunResult}
    (hdir : fs.findDir c.path = some files)
    (hempty : keptNames files = [])
    (hsmall : extract_rmsd (pre ++ post) index out fs = .ok r') :
    runData (extract_rmsd (pre ++ c :: post) index out fs) =
      .ok r'.result.data ∧
    runLines (extract_rmsd (pre ++ c :: post) index out fs) =
      .ok r'.outLines ∧
    c.condition ∈ runSkipped (extract_rmsd (pre ++ c :: post) index out fs) ∧
    warnMsg c.condition ∈
      runWarnings (extract_rmsd (pre ++ c :: post) index out fs) := by
  obtain ⟨hpc, _, hlines, _⟩ := extract_rmsd_ok hsmall
  obtain ⟨rb, hbig, hdata, hmem, hwarn⟩ :=
    processConditions_skip_middle (processCondition_skip hdir hempty)
      pre post r'.result hpc
  have hbigrun : extract_rmsd (pre ++ c :: post) index out fs =
      .ok ⟨rb, out, csvLines rb.data,
        pathJoin (pathDirname out) (pathBasename index.path)⟩ := by
    unfold extract_rmsd
    rw [hbig]
  rw [hbigrun]
  refine ⟨?_, ?_, ?_, ?_⟩
  · simp [runData, Except.map, hdata]
  · simp [runLines, Except.map, hlines, hdata]
  · simpa [runSkipped] using hmem
  · simpa [runWarnings] using hwarn

/-- Witness for C4: the empty condition `EMPTY` inserted before `WT`. -/
theorem c4_skip_on_empty_witness :
    runData (extract_rmsd
        ([] ++ ⟨"EMPTY", "data/EMPTY", "#ffffff"⟩ :: wtConditions)
        wtIndex "results/out.csv" emptyDirFS) =
      .ok ⟨[0, 0, 0], [0, 0, 0], [1, 2, 3], ["0.1", "0.2", "0.3"]⟩ ∧
    runLines (extract_rmsd
        ([] ++ ⟨"EMPTY", "data/EMPTY", "#ffffff"⟩ :: wtConditions)
        wtIndex "results/out.csv" emptyDirFS) =
      .ok ["sample,condition,frame,RMSD", "0,0,1,0.1", "0,0,2,0.2",
        "0,0,3,0.3"] ∧
    "EMPTY" ∈ runSkipped (extract_rmsd
        ([] ++ ⟨"EMPTY", "data/EMPTY", "#ffffff"⟩ :: wtConditions)
        wtIndex "results/out.csv" emptyDirFS) ∧
    warnMsg "EMPTY" ∈ runWarnings (extract_rmsd
        ([] ++ ⟨"EMPTY", "data/EMPTY", "#ffffff"⟩ :: wtConditions)
        wtIndex "results/out.csv" emptyDirFS) :=
  @c4_skip_on_empty wtIndex emptyDirFS "results/out.csv" [] wtConditions
    ⟨"EMPTY", "data/EMPTY", "#ffffff"⟩ []
    ⟨⟨⟨[0, 0, 0], [0, 0, 0], [1, 2, 3], ["0.1", "0.2", "0.3"]⟩, [], []⟩,
      "results/out.csv",
      ["sample,condition,frame,RMSD", "0,0,1,0.1", "0,0,2,0.2", "0,0,3,0.3"],
      "results/index.xlsx"⟩
    rfl rfl rfl

/-- C5: `RMSD_sampleA_traj.csv` passes the directory filter and its
extracted sample name is `sampleA`; `RMSD_histogram_sampleA.csv` starts
with `RMSD` and ends with `.csv` but is excluded by the histogram
filter. -/
theorem c5_filename_parsing :
    keepFile "RMSD_sampleA_traj.csv" = true ∧
    extractSample "RMSD_sampleA_traj.csv" = some "sampleA" ∧
    keepFile "RMSD_histogram_sampleA.csv" = false ∧
    "RMSD".data.isPrefixOf "RMSD_histogram_sampleA.csv".data = true ∧
    strEndsWith ".csv" "RMSD_histogram_sampleA.csv" = true ∧
    hasInfix "histogram".data "RMSD_histogram_sampleA.csv".data = true := by
  decide

/-- C6: a filename that passes the directory filter but fails the pattern
`RMSD_<sample>_<anything>.csv` aborts the entire run (exit status 1, no
output CSV written) rather than being skipped: its processing yields the
pattern-mismatch fatal error, whose logged message names the pattern and
the file. -/
theorem c6_pattern_mismatch_aborts {conds : List ConditionRow}
    {index : IndexFile} {out : String} {fs : FS} {c : ConditionRow}
    {files : List (String × FileRows)} {fn : String}
    (hc : c ∈ conds) (hdir : fs.findDir c.path = some files)
    (hfn : fn ∈ keptNames files) (hnm : extractSample fn = none) :
    exitCode (extract_rmsd conds index out fs) = 1 ∧
    outputWritten (extract_rmsd conds index out fs) = none ∧
    processFile index.samples index.conditions index.path c.condition c.path
      files fn = .error (.patternMismatch fn) ∧
    loggedError (.patternMismatch fn) =
      some ("\tNo match between the pattern \x27RMSD_(.+)_.+\\.csv\x27 and the file name "
        ++ fn ++ ".") := by
  have hsr : searchRMSD fn.data = none := by
    exact Option.map_eq_none'.1 hnm
  have hfile := @processFile_pattern_error index.samples index.conditions
    index.path c.condition c.path fn files hsr
  cases hrun : extract_rmsd conds index out fs with
  | error e => exact ⟨rfl, rfl, hfile, rfl⟩
  | ok r =>
      obtain ⟨hpc, _, _, _⟩ := extract_rmsd_ok hrun
      obtain ⟨rc, hcok⟩ := processConditions_ok hpc c hc
      obtain ⟨dd, hok⟩ := processCondition_ok_file hcok hdir hfn
      rw [hfile] at hok
      cases hok

/-- Witness for C6: `RMSDx.csv` passes the filter but has no underscore
after `RMSD`, so the whole run aborts. -/
theorem c6_pattern_mismatch_aborts_witness :
    exitCode (extract_rmsd badConditions wtIndex "results/out.csv" badNameFS)
      = 1 ∧
    outputWritten (extract_rmsd badConditions wtIndex "results/out.csv"
      badNameFS) = none ∧
    processFile wtIndex.samples wtIndex.conditions wtIndex.path "BAD"
      "data/BAD" [("RMSDx.csv", [(1, "0.5")])] "RMSDx.csv" =
      .error (.patternMismatch "RMSDx.csv") ∧
    loggedError (.patternMismatch "RMSDx.csv") =
      some ("\tNo match between the pattern \x27RMSD_(.+)_.+\\.csv\x27 and the file name "
        ++ "RMSDx.csv" ++ ".") :=
  @c6_pattern_mismatch_aborts badConditions wtIndex "results/out.csv"
    badNameFS ⟨"BAD", "data/BAD", "#000000"⟩ [("RMSDx.csv", [(1, "0.5")])]
    "RMSDx.csv" (by decide) rfl (by decide) rfl

/-- C8: a sample name extracted from a kept filename but absent from the
first sheet makes the run terminate fatally (exit status 1, no output
written); the failing lookup is the unguarded one of lines 108-109 — the
fatal outcome carries no `logging.error` line, unlike the guarded
condition lookup. -/
theorem c8_sample_lookup_unguarded {conds : List ConditionRow}
    {index : IndexFile} {out : String} {fs : FS} {c : ConditionRow}
    {files : List (String × FileRows)} {fn s : String} {rows : FileRows}
    (hc : c ∈ conds) (hdir : fs.findDir c.path = some files)
    (hfn : fn ∈ keptNames files) (hs : extractSample fn = some s)
    (hrows : findFile files fn = some rows)
    (hmiss : lookupIndex index.samples s = none) :
    exitCode (extract_rmsd conds index out fs) = 1 ∧
    outputWritten (extract_rmsd conds index out fs) = none ∧
    processFile index.samples index.conditions index.path c.condition c.path
      files fn = .error (.sampleNotInIndex s) ∧
    loggedError (.sampleNotInIndex s) = none := by
  obtain ⟨g, hg, hmk⟩ := Option.map_eq_some'.1 hs
  have hfile : processFile index.samples index.conditions index.path
      c.condition c.path files fn = .error (.sampleNotInIndex s) := by
    rw [← hmk]
    simp [processFile, hg, hrows, hmk ▸ hmiss]
  cases hrun : extract_rmsd conds index out fs with
  | error e => exact ⟨rfl, rfl, hfile, rfl⟩
  | ok r =>
      obtain ⟨hpc, _, _, _⟩ := extract_rmsd_ok hrun
      obtain ⟨rc, hcok⟩ := processConditions_ok hpc c hc
      obtain ⟨dd, hok⟩ := processCondition_ok_file hcok hdir hfn
      rw [hfile] at hok
      cases hok

/-- Witness for C8: sample `s1` missing from the first sheet. -/
theorem c8_sample_lookup_unguarded_witness :
    exitCode (extract_rmsd wtConditions noSampleIndex "results/out.csv" wtFS)
      = 1 ∧
    outputWritten (extract_rmsd wtConditions noSampleIndex "results/out.csv"
      wtFS) = none ∧
    processFile noSampleIndex.samples noSampleIndex.conditions
      noSampleIndex.path "WT" "data/WT"
      [("RMSD_s1_x.csv", [(1, "0.1"), (2, "0.2"), (3, "0.3")])]
      "RMSD_s1_x.csv" = .error (.sampleNotInIndex "s1") ∧
    loggedError (.sampleNotInIndex "s1") = none :=
  @c8_sample_lookup_unguarded wtConditions noSampleIndex "results/out.csv"
    wtFS ⟨"WT", "data/WT", "#0303fc"⟩
    [("RMSD_s1_x.csv", [(1, "0.1"), (2, "0.2"), (3, "0.3")])]
    "RMSD_s1_x.csv" "s1" [(1, "0.1"), (2, "0.2"), (3, "0.3")]
    (by decide) rfl (by decide) rfl rfl rfl

/-- C7 counterexample: condition `WT` is in the manifest, not skipped, and
absent from the second sheet — the claim predicts a logged error naming
`WT` and the index path, but when the file's sample is also absent from
the first sheet the run dies earlier, in the unguarded sample lookup,
which logs nothing. -/
theorem c7_counterexample :
    lookupIndex emptyIndex.conditions "WT" = none ∧
    keptNames [("RMSD_s1_x.csv", [(1, "0.1"), (2, "0.2"), (3, "0.3")])] =
      ["RMSD_s1_x.csv"] ∧
    extract_rmsd wtConditions emptyIndex "results/out.csv" wtFS =
      .error (.sampleNotInIndex "s1") ∧
    loggedError (.sampleNotInIndex "s1") = none :=
  ⟨rfl, rfl, rfl, rfl⟩

/-- C7 (amended): a non-skipped condition absent from the second sheet
makes the run terminate with exit status 1 and no output CSV written; and
when the condition-lookup failure is the first fatal event — the filename
matches the pattern, its CSV is readable and its sample is present in
sheet 1 — the fatal error is the guarded one, whose logged message names
the offending condition and the index-file path. -/
theorem c7_condition_lookup_aborts {conds : List ConditionRow}
    {index : IndexFile} {out : String} {fs : FS} {c : ConditionRow}
    {files : List (String × FileRows)} {fn s : String} {si : Int}
    {rows : FileRows}
    (hc : c ∈ conds) (hdir : fs.findDir c.path = some files)
    (hne : keptNames files ≠ [])
    (hmiss : lookupIndex index.conditions c.condition = none)
    (hs : extractSample fn = some s)
    (hrows : findFile files fn = some rows)
    (hsi : lookupIndex index.samples s = some si) :
    exitCode (extract_rmsd conds index out fs) = 1 ∧
    outputWritten (extract_rmsd conds index out fs) = none ∧
    processFile index.samples index.conditions index.path c.condition c.path
      files fn = .error (.conditionNotInIndex c.condition index.path) ∧
    loggedError (.conditionNotInIndex c.condition index.path) =
      some ("\"" ++ c.condition
        ++ "\" does not exists in the second tab of the index file: "
        ++ index.path) := by
  obtain ⟨g, hg, hmk⟩ := Option.map_eq_some'.1 hs
  have hfile : processFile index.samples index.conditions index.path
      c.condition c.path files fn =
      .error (.conditionNotInIndex c.condition index.path) := by
    simp [processFile, hg, hrows, hmk ▸ hsi, hmiss]
  cases hrun : extract_rmsd conds index out fs with
  | error e => exact ⟨rfl, rfl, hfile, rfl⟩
  | ok r =>
      obtain ⟨hpc, _, _, _⟩ := extract_rmsd_ok hrun
      obtain ⟨rc, hcok⟩ := processConditions_ok hpc c hc
      obtain ⟨fn0, hfn0⟩ := List.exists_mem_of_ne_nil _ hne
      obtain ⟨dd, hok⟩ := processCondition_ok_file hcok hdir hfn0
      obtain ⟨ci, hci⟩ := processFile_ok_condition hok
      rw [hmiss] at hci
      cases hci

/-- Witness for the amended C7: condition `WT` missing from the second
sheet while sample `s1` resolves. -/
theorem c7_condition_lookup_aborts_witness :
    exitCode (extract_rmsd wtConditions noCondIndex "results/out.csv" wtFS)
      = 1 ∧
    outputWritten (extract_rmsd wtConditions noCondIndex "results/out.csv"
      wtFS) = none ∧
    processFile noCondIndex.samples noCondIndex.conditions noCondIndex.path
      "WT" "data/WT"
      [("RMSD_s1_x.csv", [(1, "0.1"), (2, "0.2"), (3, "0.3")])]
      "RMSD_s1_x.csv" =
      .error (.conditionNotInIndex "WT" "data/index.xlsx") ∧
    loggedError (.conditionNotInIndex "WT" "data/index.xlsx") =
      some ("\"" ++ "WT"
        ++ "\" does not exists in the second tab of the index file: "
        ++ "data/index.xlsx") :=
  @c7_condition_lookup_aborts wtConditions noCondIndex "results/out.csv"
    wtFS ⟨"WT", "data/WT", "#0303fc"⟩
    [("RMSD_s1_x.csv", [(1, "0.1"), (2, "0.2"), (3, "0.3")])]
    "RMSD_s1_x.csv" "s1" 0 [(1, "0.1"), (2, "0.2"), (3, "0.3")]
    (by decide) rfl (by decide) rfl rfl rfl rfl

/-! ## Manifest parsing (C9) -/

theorem mk_data (s : String) : String.mk s.data = s := rfl

theorem splitComma_no_comma {l : List Char} (h : ',' ∉ l) :
    splitComma l = [l] := by
  induction l with
  | nil => rfl
  | cons c t ih =>
      have hc : (c == ',') = false := by
        have : c ≠ ',' := fun he => h (he ▸ List.mem_cons_self c t)
        simpa using this
      have ht := ih (fun hm => h (List.mem_cons_of_mem c hm))
      simp [splitComma, hc, ht]

theorem splitComma_append {a : List Char} (r : List Char) (h : ',' ∉ a) :
    splitComma (a ++ ',' :: r) = a :: splitComma r := by
  induction a with
  | nil => simp [splitComma]
  | cons c t ih =>
      have hc : (c == ',') = false := by
        have : c ≠ ',' := fun he => h (he ▸ List.mem_cons_self c t)
        simpa using this
      have ht := ih (fun hm => h (List.mem_cons_of_mem c hm))
      simp [splitComma, hc, ht]

/-- A line built from three comma-free fields parses back to exactly those
fields. -/
theorem parseManifestLine_round (p : String × String × String)
    (h1 : ',' ∉ p.1.data) (h2 : ',' ∉ p.2.1.data) (h3 : ',' ∉ p.2.2.data) :
    parseManifestLine (manifestLineOf p) = some (conditionRowOf p) := by
  have hdata : (manifestLineOf p).data =
      p.1.data ++ ',' :: (p.2.1.data ++ ',' :: p.2.2.data) := by
    simp only [manifestLineOf, String.data_append, List.append_assoc]
    rfl
  rw [parseManifestLine, hdata, splitComma_append _ h1,
    splitComma_append _ h2, splitComma_no_comma h3]
  simp [mk_data, conditionRowOf]

/-- C9: a headerless 3-column comma-separated manifest loads to a
condition list of the same length, in the same order, with each row's
three field values preserved exactly. -/
theorem c9_manifest_round_trip (rows : List (String × String × String))
    (h : ∀ p ∈ rows, ',' ∉ p.1.data ∧ ',' ∉ p.2.1.data ∧ ',' ∉ p.2.2.data) :
    get_conditions (rows.map manifestLineOf) = some (rows.map conditionRowOf) ∧
    (rows.map conditionRowOf).length = rows.length := by
  refine ⟨?_, List.length_map rows conditionRowOf⟩
  induction rows with
  | nil => rfl
  | cons p t ih =>
      obtain ⟨h1, h2, h3⟩ := h p (List.mem_cons_self p t)
      have hp := parseManifestLine_round p h1 h2 h3
      have ht := ih (fun q hq => h q (List.mem_cons_of_mem p hq))
      simp only [List.map_cons, get_conditions, List.mapM_cons, hp,
        Option.bind_eq_bind, Option.some_bind]
      simp only [get_conditions] at ht
      rw [ht]
      rfl

/-- Witness for C9 at a one-row manifest. -/
theorem c9_manifest_round_trip_witness :
    get_conditions ([("WT", "tests/inputs/WT", "#0303fc")].map manifestLineOf)
      = some ([("WT", "tests/inputs/WT", "#0303fc")].map conditionRowOf) ∧
    ([("WT", "tests/inputs/WT", "#0303fc")].map conditionRowOf).length =
      ([("WT", "tests/inputs/WT", "#0303fc")] :
        List (String × String × String)).length :=
  c9_manifest_round_trip [("WT", "tests/inputs/WT", "#0303fc")] (by decide)

/-! ## Greedy regex extraction (C10) -/

theorem dotPlusCsv_append :
    ∀ (u : List Char) (c : Char), c ≠ '\n' → '\n' ∉ u →
      dotPlusCsv (c :: u ++ ".csv".data) = true := by
  intro u
  induction u with
  | nil =>
      intro c hc _
      have hb : (c != '\n') = true := by simpa using hc
      simp [dotPlusCsv, dotOk, hb]
  | cons d v ih =>
      intro c hc hnv
      have hd := ih d (fun he => hnv (he ▸ List.mem_cons_self d v))
        (fun hm => hnv (List.mem_cons_of_mem d hm))
      have hb : (c != '\n') = true := by simpa using hc
      show (dotOk c &&
        (".csv".data.isPrefixOf (d :: (v ++ ".csv".data)) ||
          dotPlusCsv (d :: (v ++ ".csv".data)))) = true
      rw [show dotPlusCsv (d :: (v ++ ".csv".data)) = true from hd,
        Bool.or_true, Bool.and_true]
      simpa [dotOk] using hc

theorem tailMatch_drop_false {u : List Char} (hu : '_' ∉ u) (i : Nat) :
    tailMatch (u.drop i) = false := by
  cases hd : u.drop i with
  | nil => rfl
  | cons c rest =>
      have hcu : c ∈ u :=
        List.mem_of_mem_drop (hd ▸ List.mem_cons_self c rest)
      have : (c == '_') = false := by
        have hne : c ≠ '_' := fun he => hu (he ▸ hcu)
        simpa using hne
      simp [tailMatch, this]

/-- The greedy scan returns the largest admissible group length. -/
theorem greedyGroup_eq {s : List Char} {m : Nat} (h1 : 1 ≤ m)
    (hc : groupCheck s m = true) :
    ∀ n, m ≤ n → (∀ j, m < j → j ≤ n → groupCheck s j = false) →
      greedyGroup s n = some (s.take m) := by
  intro n
  induction n with
  | zero => intro hmn _; omega
  | succ k ih =>
      intro hmn hfail
      by_cases hmk : m = k + 1
      · subst hmk
        simp [greedyGroup, hc]
      · have hlt : m ≤ k := by omega
        have hfk : groupCheck s (k + 1) = false :=
          hfail (k + 1) (by omega) (le_refl _)
        have : greedyGroup s (k + 1) = greedyGroup s k := by
          simp [greedyGroup, hfk]
        rw [this]
        exact ih hlt (fun j hj hjk => hfail j hj (by omega))

/-- One `re.search` step at a position where the literal `RMSD_`
matches. -/
theorem searchRMSD_cons (s : List Char) :
    searchRMSD ('R' :: 'M' :: 'S' :: 'D' :: '_' :: s) =
      match greedyGroup s s.length with
      | some g => some g
      | none => searchRMSD ('M' :: 'S' :: 'D' :: '_' :: s) := by
  have hlit : "RMSD_".data = ['R', 'M', 'S', 'D', '_'] := rfl
  have hpre : "RMSD_".data.isPrefixOf
      ('R' :: 'M' :: 'S' :: 'D' :: '_' :: s) = true := by
    rw [hlit]
    simp [List.isPrefixOf]
  rw [searchRMSD, hpre]
  simp

/-- C10 counterexample: `RMSD_a_b_.csv` is kept, has three underscores,
and its last underscore sits directly before `.csv`; the claim's reading
(everything between `RMSD_` and the last underscore) predicts `a_b`, but
the regex backtracks past the final underscore (the `.+` after it needs at
least one character) and extracts `a`. -/
theorem c10_counterexample :
    keepFile "RMSD_a_b_.csv" = true ∧
    ("RMSD_a_b_.csv".data.filter (fun ch => ch == '_')).length = 3 ∧
    "RMSD_a_b_.csv" = "RMSD_" ++ "a_b" ++ "_" ++ "" ++ ".csv" ∧
    extractSample "RMSD_a_b_.csv" = some "a" ∧
    extractSample "RMSD_a_b_.csv" ≠ some "a_b" := by
  refine ⟨rfl, rfl, rfl, rfl, ?_⟩
  decide

/-- C10 (amended): for every kept filename of the shape
`RMSD_<g>_<t>.csv` with `g` non-empty, `t` non-empty and underscore-free
(and no newlines), the extracted sample name is the greedy maximal match
`g` — everything strictly between the first `RMSD_` and the last
underscore that still leaves at least one character before `.csv`. -/
theorem c10_greedy_extraction (g t : String) (hg : g.data ≠ [])
    (ht : t.data ≠ []) (hgn : '\n' ∉ g.data) (htu : '_' ∉ t.data)
    (htn : '\n' ∉ t.data) :
    extractSample ("RMSD_" ++ g ++ "_" ++ t ++ ".csv") = some g := by
  have hdata : ("RMSD_" ++ g ++ "_" ++ t ++ ".csv").data =
      'R' :: 'M' :: 'S' :: 'D' :: '_' ::
        (g.data ++ '_' :: (t.data ++ ".csv".data)) := by
    simp only [String.data_append, List.append_assoc]
    rfl
  have hglen : 1 ≤ g.data.length := by
    cases hgd : g.data with
    | nil => exact absurd hgd hg
    | cons a b => simp
  have htake : (g.data ++ '_' :: (t.data ++ ".csv".data)).take g.data.length
      = g.data := List.take_left _ _
  have hdrop : (g.data ++ '_' :: (t.data ++ ".csv".data)).drop g.data.length
      = '_' :: (t.data ++ ".csv".data) := List.drop_left _ _
  have hcheck : groupCheck (g.data ++ '_' :: (t.data ++ ".csv".data))
      g.data.length = true := by
    rw [groupCheck, htake, hdrop]
    have hall : g.data.all dotOk = true := by
      rw [List.all_eq_true]
      intro x hx
      have : x ≠ '\n' := fun he => hgn (he ▸ hx)
      simpa [dotOk] using this
    have hdp : dotPlusCsv (t.data ++ ".csv".data) = true := by
      cases htd : t.data with
      | nil => exact absurd htd ht
      | cons c u =>
          have hc : c ≠ '\n' := fun he => htn (htd ▸ he ▸ List.mem_cons_self c u)
          have hu : '\n' ∉ u :=
            fun hm => htn (htd ▸ List.mem_cons_of_mem c hm)
          exact dotPlusCsv_append u c hc hu
    simp [tailMatch, hall, hdp]
  have hfail : ∀ j, g.data.length < j →
      j ≤ (g.data ++ '_' :: (t.data ++ ".csv".data)).length →
      groupCheck (g.data ++ '_' :: (t.data ++ ".csv".data)) j = false := by
    intro j hj _
    have hsplit : g.data ++ '_' :: (t.data ++ ".csv".data) =
        (g.data ++ ['_']) ++ (t.data ++ ".csv".data) := by
      simp
    obtain ⟨i, hi⟩ : ∃ i, j = (g.data ++ ['_']).length + i :=
      ⟨j - g.data.length - 1, by
        simp only [List.length_append, List.length_cons, List.length_nil]
        omega⟩
    have hdropj : (g.data ++ '_' :: (t.data ++ ".csv".data)).drop j =
        (t.data ++ ".csv".data).drop i := by
      rw [hsplit, hi, List.drop_append]
    have hnou : '_' ∉ t.data ++ ".csv".data := by
      rw [List.mem_append]
      rintro (hm | hm)
      · exact htu hm
      · revert hm; decide
    rw [groupCheck, hdropj, tailMatch_drop_false hnou, Bool.and_false]
  have hlen : g.data.length ≤
      (g.data ++ '_' :: (t.data ++ ".csv".data)).length := by
    simp [List.length_append]
  have hkey : greedyGroup (g.data ++ '_' :: (t.data ++ ".csv".data))
      ((g.data ++ '_' :: (t.data ++ ".csv".data)).length) =
      some ((g.data ++ '_' :: (t.data ++ ".csv".data)).take g.data.length) :=
    greedyGroup_eq hglen hcheck _ hlen hfail
  rw [extractSample, hdata, searchRMSD_cons, hkey, htake]
  simp [mk_data]

/-- Witness for the amended C10: `RMSD_a_b_c.csv` extracts `a_b`, the
greedy match, not the shortest segment `a`. -/
theorem c10_greedy_extraction_witness :
    extractSample ("RMSD_" ++ "a_b" ++ "_" ++ "c" ++ ".csv") = some "a_b" :=
  @c10_greedy_extraction "a_b" "c" (by decide) (by decide) (by decide)
    (by decide) (by decide)

end RmsdStats
